import Mathlib

/-!
Shallow embedding of the Steamdle server and its database rows, together
with proofs about the daily-game selection pipeline, the review
acquisition unit, the review-page parser and the autocomplete search
endpoint.  The repository stages several iterations of the server; the
embedding covers the last-played-date rotation iteration
(`dailyGameHandler`, no payload cache) and the cache-integrated iteration
(`dailyGameCachedHandler`, with the date-keyed `dailyGameCache` slot);
the selection and scraping logic is identical across the two.

External collaborators (sqlite, axios, cheerio) are modelled at their API
boundary: database tables are lists of row structures, the network fetch is
a function from a URL to a fetch outcome, and cheerio selector extraction
results are the fields of `ReviewPage`.
-/

namespace Steamdle

/-- A row of the `games` table:
`id INTEGER PRIMARY KEY, title TEXT, steam_app_id TEXT, last_played_on DATE,
is_active BOOLEAN`. -/
structure GameRow where
  id : Nat
  title : String
  steam_app_id : String
  last_played_on : Option String
  is_active : Bool
deriving Repr, DecidableEq

/-- A row of the `game_reviews` table:
`game_id INTEGER, review_page_url TEXT, clue_order INTEGER`. -/
structure ReviewRow where
  game_id : Nat
  review_page_url : String
  clue_order : Nat
deriving Repr, DecidableEq

/-- The database state consumed by the daily-game endpoint. -/
structure Db where
  games : List GameRow
  game_reviews : List ReviewRow
deriving Repr, DecidableEq

/-! ### SQL query modelling -/

/-- SQLite `ORDER BY last_played_on ASC` comparison on a nullable DATE
column: `NULL` sorts before every value, and TEXT dates compare
lexicographically (BINARY collation). -/
def dateLe : Option String → Option String → Bool
  | none, _ => true
  | some _, none => false
  | some a, some b => decide (a ≤ b)

/-- Insert into a list sorted by `le` (used to model SQL `ORDER BY`). -/
def insertSorted (le : α → α → Bool) (a : α) : List α → List α
  | [] => [a]
  | b :: t => if le a b then a :: b :: t else b :: insertSorted le a t

/-- Sort a list by `le` (models SQL `ORDER BY`). -/
def sortByKey (le : α → α → Bool) : List α → List α
  | [] => []
  | a :: t => insertSorted le a (sortByKey le t)

/-- `SELECT review_page_url FROM game_reviews WHERE game_id = ?
ORDER BY clue_order ASC` — the entry's stored clue-source references in
clue order (before the `LIMIT 6`). -/
def orderedReviewUrls (rows : List ReviewRow) (gameId : Nat) : List String :=
  (sortByKey (fun a b => decide (a.clue_order ≤ b.clue_order))
      (rows.filter (fun r => r.game_id == gameId))).map (fun r => r.review_page_url)

/-! ### Review scraping (`scrapeSteamReview`) -/

/-- The cheerio selector-extraction results for one fetched review page, one
field per selector expression in `scrapeSteamReview`.  Each field holds what
the corresponding `.text().trim()` / `.attr('src')` / `.html()` call
returns on the fetched markup. -/
structure ReviewPage where
  /-- `$('.profile_small_header_name a.persona_name_text_content').text().trim()` -/
  personaNameText : String
  /-- `$('.profile_small_header_name').clone().children().remove().end().text().trim()` -/
  headerOwnText : String
  /-- `$('.profile_small_header_avatar .playerAvatar > img:last-child').attr('src')` -/
  avatarLastChildSrc : Option String
  /-- `$('.profile_small_header_avatar .playerAvatar img').eq(1).attr('src')` -/
  avatarSecondImgSrc : Option String
  /-- `$('.ratingSummaryBlock .ratingSummaryHeader .ratingSummary').text().trim()` -/
  ratingSummaryText : String
  /-- `$('.ratingSummaryBlock .ratingSummaryHeader .playTime').text().trim()` -/
  playTimeText : String
  /-- `$('.ratingSummaryBlock .recommendation_date').text().trim()` -/
  recommendationDateText : String
  /-- `$('#ReviewText').html()` (`null` when the element is absent) -/
  reviewTextHtml : Option String
deriving Repr, DecidableEq

/-- The success shape produced by `scrapeSteamReview`, initialised with the
per-field defaults of the source. -/
structure ReviewData where
  reviewerName : String
  reviewerAvatarUrl : Option String
  recommendation : String
  playtime : String
  datePosted : String
  reviewText : String
deriving Repr, DecidableEq

/-- First (leftmost) match of the regex `\(([^)]+) at review time\)` over a
character list, returning the capture group.  Because `[^)]+` cannot cross a
`)` and the literal tail ends in `)`, a match at a given `(` exists exactly
when the text up to the next `)` is nonempty after removing the
`" at review time"` suffix. -/
def matchAtReviewTime : List Char → Option String
  | [] => none
  | '(' :: rest =>
      let inner := rest.takeWhile (fun c => c ≠ ')')
      let suffix := " at review time".data
      if (rest.drop inner.length).head? = some ')' ∧
          suffix.isSuffixOf inner ∧ suffix.length < inner.length then
        some (String.mk (inner.take (inner.length - suffix.length)))
      else matchAtReviewTime rest
  | _ :: rest => matchAtReviewTime rest

/-- JS `s.trim()`: strip whitespace from both ends. -/
def jsTrim (s : String) : String :=
  String.mk
    (((s.data.dropWhile Char.isWhitespace).reverse.dropWhile
        Char.isWhitespace).reverse)

/-- JS `s.split(sep)` on character lists, for a non-empty separator. -/
def jsSplitChars (sep : List Char) : List Char → List (List Char)
  | [] => [[]]
  | c :: rest =>
      if hp : sep ≠ [] ∧ sep.isPrefixOf (c :: rest) then
        [] :: jsSplitChars sep ((c :: rest).drop sep.length)
      else
        match jsSplitChars sep rest with
        | [] => [[c]]
        | h :: t => (c :: h) :: t
termination_by l => l.length
decreasing_by
  · have hlen : 1 ≤ sep.length := by
      cases sep with
      | nil => exact absurd rfl hp.1
      | cons a t => simp
    simp only [List.length_drop, List.length_cons]
    omega
  · simp only [List.length_cons]; omega

/-- JS `s.split(sep)` (the source only splits on non-empty separators). -/
def jsSplit (s sep : String) : List String :=
  (jsSplitChars sep.data s.data).map String.mk

/-- JS `s.replace(pat, rep)` for a non-empty string pattern: replace the
first occurrence only. -/
def replaceFirstAux (pat rep : List Char) : List Char → List Char
  | [] => []
  | c :: rest =>
      if pat.isPrefixOf (c :: rest) then rep ++ (c :: rest).drop pat.length
      else c :: replaceFirstAux pat rep rest

/-- JS `s.replace(pat, rep)` with a string pattern: replace the first
occurrence only. -/
def replaceFirst (s pat rep : String) : String :=
  if pat = "" then rep ++ s
  else String.mk (replaceFirstAux pat.data rep.data s.data)

/-- JS `s.includes(sub)`. -/
def jsIncludes (s sub : String) : Bool :=
  decide (1 < (jsSplit s sub).length) || decide (sub = "")

/-- JS `s.startsWith(pre)`. -/
def jsStartsWith (s pre : String) : Bool :=
  pre.data.isPrefixOf s.data

/-- The fallback playtime expression
`playTimeText.split('/')[1]?.trim().split(' on record')[0]?.trim()`. -/
def fallbackPlaytime (t : String) : Option String :=
  match (jsSplit t "/").get? 1 with
  | none => none
  | some p => some (jsTrim (((jsSplit (jsTrim p) " on record").headD "")))

/-- The playtime field logic of `scrapeSteamReview`: prefer the
`( … at review time)` capture; otherwise parse the `total / on record`
phrase, normalising to carry an `hrs` suffix; otherwise keep the default. -/
def extractPlaytime (playTimeText : String) : String :=
  match matchAtReviewTime playTimeText.data with
  | some cap => cap
  | none =>
      if playTimeText ≠ "" then
        match fallbackPlaytime playTimeText with
        | some fp =>
            if fp ≠ "" then
              let p := if jsIncludes fp "hrs" then fp else fp ++ " hrs"
              if p = "hrs" then "Playtime not shown" else p
            else "Playtime not shown"
        | none => "Playtime not shown"
      else "Playtime not shown"

/-- The `\s*\/?>` portion of the `<br>` regex, applied after whitespace was
skipped: an optional `/` then `>`; returns the remainder after the tag. -/
def brTagClose : List Char → Option (List Char)
  | a :: rest =>
      if a = '>' then some rest
      else if a = '/' then
        match rest with
        | b :: rest2 => if b = '>' then some rest2 else none
        | [] => none
      else none
  | [] => none

/-- Whether a `<br`-tag tail follows: `\s*` then optional `/` then `>`;
returns the remainder after the tag. -/
def brTagTail (cs : List Char) : Option (List Char) :=
  brTagClose (cs.dropWhile Char.isWhitespace)

theorem dropWhile_length_le (p : Char → Bool) (l : List Char) :
    (l.dropWhile p).length ≤ l.length := by
  induction l with
  | nil => simp [List.dropWhile]
  | cons a t ih =>
      simp only [List.dropWhile]
      split
      · simp only [List.length_cons]; omega
      · simp

theorem brTagClose_length {cs rest : List Char} (h : brTagClose cs = some rest) :
    rest.length ≤ cs.length := by
  cases cs with
  | nil => exact absurd h (by simp [brTagClose])
  | cons a t =>
      simp only [brTagClose] at h
      split_ifs at h with ha hb
      · cases h; simp
      · cases t with
        | nil => exact absurd h (by simp)
        | cons b t2 =>
            simp only [] at h
            split_ifs at h
            cases h
            simp only [List.length_cons]
            omega

theorem brTagTail_length {cs rest : List Char} (h : brTagTail cs = some rest) :
    rest.length ≤ cs.length :=
  le_trans (brTagClose_length h) (dropWhile_length_le Char.isWhitespace cs)

/-- JS `html.replace(/<br\s*\/?>/gi, '\n')`. -/
def replaceBrChars : List Char → List Char
  | [] => []
  | a :: b :: c :: rest =>
      if a = '<' ∧ (b = 'b' ∨ b = 'B') ∧ (c = 'r' ∨ c = 'R') then
        match h : brTagTail rest with
        | some rem => '\n' :: replaceBrChars rem
        | none => a :: replaceBrChars (b :: c :: rest)
      else a :: replaceBrChars (b :: c :: rest)
  | a :: rest => a :: replaceBrChars rest
termination_by l => l.length
decreasing_by
  · simp only [List.length_cons]
    have := brTagTail_length h
    omega
  · simp only [List.length_cons]; omega
  · simp only [List.length_cons]; omega
  · simp only [List.length_cons]; omega

/-- JS `html.replace(/<br\s*\/?>/gi, '\n')` on strings. -/
def replaceBr (s : String) : String := String.mk (replaceBrChars s.data)

/-- The parsing portion of `scrapeSteamReview`: starting from the default
record, each field is overwritten from its own selector results when they
yield a usable value.  `divText` models the cheerio composite
`$('<div>').html(h).text()` (tag stripping / entity decoding) used for the
review body. -/
def parseReviewPage (divText : String → String) (p : ReviewPage) : ReviewData :=
  { reviewerName :=
      if p.personaNameText ≠ "" then p.personaNameText
      else if p.headerOwnText ≠ "" then p.headerOwnText
      else "A Steam User"
    reviewerAvatarUrl :=
      match p.avatarLastChildSrc with
      | some s => some s
      | none =>
          match p.avatarSecondImgSrc with
          | some s => some s
          | none => none
    recommendation :=
      if p.ratingSummaryText ≠ "" then p.ratingSummaryText else "Not specified"
    playtime := extractPlaytime p.playTimeText
    datePosted :=
      let tempDate := replaceFirst p.recommendationDateText "Posted: " ""
      if tempDate ≠ "" then tempDate else "Date not found"
    reviewText :=
      match p.reviewTextHtml with
      | some h => jsTrim (divText (replaceBr h))
      | none => "Could not load review text." }

/-- Outcome of `axios.get` on a review URL followed by cheerio extraction:
either the extracted page fields, or a thrown error (network failure,
non-success status, timeout, or a parse exception inside the `try`). -/
inductive FetchResult where
  | ok (page : ReviewPage)
  | failure
deriving Repr, DecidableEq

/-- A Clue Record: the JSON value `scrapeSteamReview` resolves with —
either the populated review-data object, or the catch-block object
`{ error: true, message, originalUrl, reviewerName }`. -/
inductive ClueRecord where
  | success (d : ReviewData)
  | failure (message : String) (originalUrl : String) (reviewerName : String)
deriving Repr, DecidableEq

/-- `scrapeSteamReview(reviewUrl)`: fetch and parse one review page; any
error inside the `try` yields the failure record
`{ error: true, message: 'Scraping failed', originalUrl: reviewUrl,
reviewerName: 'Error' }`. -/
def scrapeSteamReview (divText : String → String) (fetch : String → FetchResult)
    (reviewUrl : String) : ClueRecord :=
  match fetch reviewUrl with
  | .ok page => .success (parseReviewPage divText page)
  | .failure => .failure "Scraping failed" reviewUrl "Error"

/-! ### Daily-game selection (`GET /api/daily-game`) -/

/-- `SELECT id, title, steam_app_id FROM games WHERE last_played_on = ?
AND is_active = TRUE` (Block A): the first row already marked with today's
date. -/
def blockA (games : List GameRow) (today : String) : Option GameRow :=
  (games.filter (fun g => g.is_active && g.last_played_on == some today)).head?

/-- Candidate rows of Block B's query `WHERE last_played_on IS NULL AND
is_active = TRUE`: the active, never-played entries (`ORDER BY RANDOM()`
picks among them). -/
def blockBCands (games : List GameRow) : List GameRow :=
  games.filter (fun g => g.is_active && g.last_played_on == none)

/-- Candidate rows Block C's query `WHERE is_active = TRUE ORDER BY
last_played_on ASC, RANDOM() LIMIT 1` can return: the active rows whose
`last_played_on` is minimal (`RANDOM()` breaks the tie among them). -/
def blockCCands (games : List GameRow) : List GameRow :=
  let act := games.filter (fun g => g.is_active)
  act.filter (fun g => act.all (fun h => dateLe g.last_played_on h.last_played_on))

/-- `ORDER BY RANDOM() LIMIT 1` over a candidate list, with the randomness
supplied as an index oracle `r`: returns the `r % length`-th candidate, or
`NULL` when there are no candidates. -/
def pickRandom (cands : List GameRow) (r : Nat) : Option GameRow :=
  cands.get? (r % cands.length)

/-- `UPDATE games SET last_played_on = ? WHERE id = ?` (Block D). -/
def markPlayed (games : List GameRow) (gid : Nat) (today : String) :
    List GameRow :=
  games.map (fun g =>
    if g.id == gid then { g with last_played_on := some today } else g)

/-- The selection portion of the `/api/daily-game` handler (Blocks A, B, C
and the Block D update, with the `db.run` assumed to succeed): returns the
selected row (if any), the games table afterwards, and whether an `UPDATE`
was executed. -/
def dailySelectGames (games : List GameRow) (today : String) (r : Nat) :
    Option GameRow × List GameRow × Bool :=
  match blockA games today with
  | some g => (some g, games, false)
  | none =>
      match pickRandom (blockBCands games) r with
      | some g => (some g, markPlayed games g.id today, true)
      | none =>
          match pickRandom (blockCCands games) r with
          | some g => (some g, markPlayed games g.id today, true)
          | none => (none, games, false)

/-- The HTTP response the daily-game route sends: `payload` is
`res.json({title, appId, reviews})`; `error` is
`res.status(s).json({ error: msg })`; `errorData` is
`res.status(s).json({ error: true, message: msg })` (the cached error
object serialized whole, a distinct JSON body shape). -/
inductive DailyResponse where
  | payload (title : String) (appId : String) (reviews : List ClueRecord)
  | error (status : Nat) (message : String)
  | errorData (status : Nat) (message : String)
deriving Repr, DecidableEq

/-- `fetchReviewsForGameAndRespond(game, res)`: read the game's review page
URLs in clue order with `LIMIT 6`; on an empty list respond with
`reviews: []`; otherwise scrape every URL concurrently (`Promise.all`
preserves positions) and respond with the scraped records.  The second
component records which URLs were fetched over the network by this call. -/
def fetchReviewsForGameAndRespond (divText : String → String)
    (fetch : String → FetchResult) (rows : List ReviewRow) (game : GameRow) :
    DailyResponse × List String :=
  let reviewPageUrls := (orderedReviewUrls rows game.id).take 6
  if reviewPageUrls.isEmpty then
    (.payload game.title game.steam_app_id [], [])
  else
    (.payload game.title game.steam_app_id
        (reviewPageUrls.map (scrapeSteamReview divText fetch)),
      reviewPageUrls)

/-- The full `GET /api/daily-game` handler of the pre-cache
last-played-date iteration.  `r` is the randomness oracle for the two
`ORDER BY RANDOM()` queries; `persistFails` says whether the Block D
`db.run` fails (its rejection is caught by the route's `catch`, which
answers 500).  Returns the response, the database afterwards, and the
list of review URLs fetched from the network during the request. -/
def dailyGameHandler (divText : String → String) (fetch : String → FetchResult)
    (db : Db) (today : String) (r : Nat) (persistFails : Bool) :
    DailyResponse × Db × List String :=
  match blockA db.games today with
  | some g =>
      let rt := fetchReviewsForGameAndRespond divText fetch db.game_reviews g
      (rt.1, db, rt.2)
  | none =>
      let picked :=
        match pickRandom (blockBCands db.games) r with
        | some g => some g
        | none => pickRandom (blockCCands db.games) r
      match picked with
      | none => (.error 500 "No games available to select for today.", db, [])
      | some g =>
          if persistFails then
            (.error 500 "Internal server error while selecting daily game.", db, [])
          else
            let db' : Db := { db with games := markPlayed db.games g.id today }
            let rt := fetchReviewsForGameAndRespond divText fetch db.game_reviews g
            (rt.1, db', rt.2)

/-- The game row the handler passes to `fetchReviewsForGameAndRespond`
(`none` when the route answers with an error instead). -/
def servedGame (games : List GameRow) (today : String) (r : Nat)
    (persistFails : Bool) : Option GameRow :=
  match blockA games today with
  | some g => some g
  | none =>
      match pickRandom (blockBCands games) r with
      | some g => if persistFails then none else some g
      | none =>
          match pickRandom (blockCCands games) r with
          | some g => if persistFails then none else some g
          | none => none

/-- One selection per day over a schedule of (date, randomness) pairs, with
every Block D write succeeding: the per-day selected rows and the final
games table. -/
def selectRun (games : List GameRow) :
    List (String × Nat) → List GameRow × List GameRow
  | [] => ([], games)
  | (d, r) :: rest =>
      let s := dailySelectGames games d r
      let tail := selectRun s.2.1 rest
      (s.1.toList ++ tail.1, tail.2)

/-! ### Autocomplete search (`GET /api/search-steam-games`) -/

/-- A cached Steam app-list entry (`{ name, appid }`). -/
structure SteamApp where
  name : String
  appid : Nat
deriving Repr, DecidableEq

/-- `normalizeStringServer(str)`: lower-case and strip every character that
is not a lower-case letter or digit. -/
def normalizeStringServer (str : String) : String :=
  String.mk ((str.data.map Char.toLower).filter
    (fun c => ('a' ≤ c && c ≤ 'z') || ('0' ≤ c && c ≤ '9')))

/-- JS `parseInt(s, 10)`: skip leading whitespace, optional sign, then
digits; `NaN` (modelled as `none`) when no digits follow. -/
def jsParseInt (s : String) : Option Int :=
  let t := s.data.dropWhile Char.isWhitespace
  let (neg, t) :=
    match t with
    | '-' :: rest => (true, rest)
    | '+' :: rest => (false, rest)
    | _ => (false, t)
  let digits := t.takeWhile Char.isDigit
  if digits.isEmpty then none
  else
    let n := digits.foldl (fun acc c => acc * 10 + (c.toNat - '0'.toNat)) 0
    some (if neg then -(n : Int) else (n : Int))

/-- `parseInt(req.query.limit, 10) || 15`: `NaN` and `0` are falsy. -/
def parseLimit (limitParam : Option String) : Int :=
  match limitParam with
  | none => 15
  | some s =>
      match jsParseInt s with
      | none => 15
      | some n => if n = 0 then 15 else n

/-- JS `arr.slice(0, limit)` with a possibly negative `limit` (a negative
end counts from the end of the array). -/
def jsSlice (l : List α) (limit : Int) : List α :=
  if 0 ≤ limit then l.take limit.toNat
  else l.take (max ((l.length : Int) + limit) 0).toNat

/-- The comparator passed to `.sort(...)` in the search handler, as a
`≤`-style relation: prefix matches first, then normalized-name order. -/
def suggestionLe (term : String) (a b : String × String) : Bool :=
  let aS := jsStartsWith a.2 term
  let bS := jsStartsWith b.2 term
  if aS && !bS then true
  else if !aS && bS then false
  else decide (a.2 ≤ b.2)

/-- The `GET /api/search-steam-games` handler body after the cache refresh:
trim the term, require at least 2 characters, then filter the cached apps
by normalized containment, sort (prefix matches first, then normalized
order), cap at `limit` and return the original names. -/
def searchSteamGames (cache : List SteamApp) (term : Option String)
    (limitParam : Option String) : List String :=
  let searchTermRaw := match term with | some t => jsTrim t | none => ""
  let limit := parseLimit limitParam
  if searchTermRaw = "" || searchTermRaw.length < 2 then []
  else
    let normalizedSearchTerm := normalizeStringServer searchTermRaw
    let withNorm := cache.map (fun app => (app.name, normalizeStringServer app.name))
    let filtered := withNorm.filter
      (fun p => jsIncludes p.2 normalizedSearchTerm)
    let sorted := sortByKey (suggestionLe normalizedSearchTerm) filtered
    (jsSlice sorted limit).map (fun p => p.1)

/-! ### Cache-integrated daily-game route -/

/-- The value stored in the daily cache slot's `gameData`: either the
assembled success payload or an `{ error: true, message }` marker. -/
inductive GameData where
  | payload (title : String) (appId : String) (reviews : List ClueRecord)
  | errorData (message : String)
deriving Repr, DecidableEq

/-- `let dailyGameCache = { date: null, gameData: null }`: the
process-wide, date-keyed single-slot daily payload cache. -/
structure DailyGameCache where
  date : Option String
  gameData : Option GameData
deriving Repr, DecidableEq

/-- Result of one request to the cache-integrated `/api/daily-game` route:
the HTTP response, the database and cache afterwards, the clue-source URLs
fetched over the network during the request, and whether the request ran
any catalog (`games` / `game_reviews`) query at all. -/
structure CachedRequestResult where
  response : DailyResponse
  db : Db
  cache : DailyGameCache
  fetched : List String
  catalogQueried : Bool
deriving Repr, DecidableEq

/-- `getAndScrapeReviewDataForGame(gameSelection)` of the cache-integrated
iteration: read the entry's clue URLs in clue order (`LIMIT 6`), scrape
them all concurrently, and return the assembled data object (`reviews: []`
when the entry has none); unlike `fetchReviewsForGameAndRespond` it
returns data instead of sending the response, so the route can cache it.
The second component records the URLs fetched over the network. -/
def getAndScrapeReviewDataForGame (divText : String → String)
    (fetch : String → FetchResult) (rows : List ReviewRow) (g : GameRow) :
    GameData × List String :=
  let reviewPageUrls := (orderedReviewUrls rows g.id).take 6
  if reviewPageUrls.isEmpty then (.payload g.title g.steam_app_id [], [])
  else
    (.payload g.title g.steam_app_id
        (reviewPageUrls.map (scrapeSteamReview divText fetch)),
      reviewPageUrls)

/-- The tail of the cache-integrated route once a game is selected: scrape
its reviews, store the resulting data object in the slot keyed by today,
and respond 200 with the payload (or 500 with `{ error: message }` when
the data object carries an error marker). -/
def cacheAndRespond (divText : String → String) (fetch : String → FetchResult)
    (db : Db) (today : String) (g : GameRow) : CachedRequestResult :=
  match (getAndScrapeReviewDataForGame divText fetch db.game_reviews g).1 with
  | .errorData msg =>
      ⟨.error 500 (if msg = "" then "Failed to process reviews for the daily game."
          else msg),
        db, ⟨some today, some (.errorData msg)⟩,
        (getAndScrapeReviewDataForGame divText fetch db.game_reviews g).2, true⟩
  | .payload t a revs =>
      ⟨.payload t a revs, db, ⟨some today, some (.payload t a revs)⟩,
        (getAndScrapeReviewDataForGame divText fetch db.game_reviews g).2, true⟩

/-- The cache-miss body of the cache-integrated route: Blocks A–D exactly
as in `dailyGameHandler`, then scrape/store/respond; the no-games exit and
the `catch` store an error marker in today's slot and answer 500 with the
marker object itself. -/
def dailyGameCacheMissPath (divText : String → String)
    (fetch : String → FetchResult) (db : Db) (today : String) (r : Nat)
    (persistFails : Bool) : CachedRequestResult :=
  match blockA db.games today with
  | some g => cacheAndRespond divText fetch db today g
  | none =>
      match pickRandom (blockBCands db.games) r with
      | some g =>
          if persistFails then
            ⟨.errorData 500 "Internal server error while selecting daily game.",
              db,
              ⟨some today,
                some (.errorData "Internal server error while selecting daily game.")⟩,
              [], true⟩
          else
            cacheAndRespond divText fetch
              { db with games := markPlayed db.games g.id today } today g
      | none =>
          match pickRandom (blockCCands db.games) r with
          | some g =>
              if persistFails then
                ⟨.errorData 500 "Internal server error while selecting daily game.",
                  db,
                  ⟨some today,
                    some (.errorData "Internal server error while selecting daily game.")⟩,
                  [], true⟩
              else
                cacheAndRespond divText fetch
                  { db with games := markPlayed db.games g.id today } today g
          | none =>
              ⟨.errorData 500 "No games available to select for today.", db,
                ⟨some today,
                  some (.errorData "No games available to select for today.")⟩,
                [], true⟩

/-- The response the hit branch of the cache-integrated route produces
from a filled slot: a cached success payload verbatim via `res.json`, a
cached error as `500 { error: message || "Failed to get daily game data
(cached error)." }`. -/
def slotResponse (gd : GameData) : DailyResponse :=
  match gd with
  | .errorData msg =>
      .error 500 (if msg = "" then
        "Failed to get daily game data (cached error)." else msg)
  | .payload t a revs => .payload t a revs

/-- The cache-integrated `GET /api/daily-game` handler: when today's slot
is filled, serve it (see `slotResponse`) performing no catalog query and
no fetch; otherwise run the cache-miss body, which fills the slot. -/
def dailyGameCachedHandler (divText : String → String)
    (fetch : String → FetchResult) (db : Db) (cache : DailyGameCache)
    (today : String) (r : Nat) (persistFails : Bool) : CachedRequestResult :=
  match cache.gameData with
  | some gd =>
      if cache.date = some today then ⟨slotResponse gd, db, cache, [], false⟩
      else dailyGameCacheMissPath divText fetch db today r persistFails
  | none => dailyGameCacheMissPath divText fetch db today r persistFails

/-! ## Theorems -/

/-- **C10**: a request to `GET /api/search-steam-games` whose `term`
parameter is missing, or whose trimmed term is shorter than 2 characters,
is answered with the empty array, for every `limit` parameter and every
cached app list. -/
theorem searchSteamGames_short_term_empty (cache : List SteamApp)
    (term : Option String) (limitParam : Option String)
    (h : (jsTrim (term.getD "")).length < 2) :
    searchSteamGames cache term limitParam = [] := by
  unfold searchSteamGames
  cases term with
  | none => simp
  | some t =>
      simp only [Option.getD_some] at h
      simp [h]

/-- Witness for C10 at a concrete one-character term. -/
theorem searchSteamGames_short_term_empty_witness :
    searchSteamGames [⟨"Portal 2", 620⟩] (some " a ") (some "5") = [] :=
  searchSteamGames_short_term_empty _ _ _ (by decide)

/-- Counterexample to **C5** as stated: a failing fetch yields the failure
record `{ error: true, message: "Scraping failed", originalUrl, reviewerName:
"Error" }`; its message is not the spec's token `"fetch-failed"`. -/
theorem scrape_failure_message_cex :
    scrapeSteamReview (fun s => s) (fun _ => .failure) "http://u"
        = .failure "Scraping failed" "http://u" "Error" ∧
      "Scraping failed" ≠ "fetch-failed" := by
  exact ⟨rfl, by decide⟩

/-- **C5 (amended)**: for every list of clue-source URLs, the acquisition
produces a same-length record list; a reference whose fetch or parse fails
yields the failure record `{ error: true, message: "Scraping failed",
originalUrl }` with the original locator preserved, no exception escapes the
per-clue boundary (every position yields a record), and each sibling
position resolves independently from its own fetch result alone. -/
theorem scrapeSteamReview_per_clue (divText : String → String)
    (fetch : String → FetchResult) (urls : List String) :
    (urls.map (scrapeSteamReview divText fetch)).length = urls.length ∧
    ∀ i u, urls.get? i = some u →
      (fetch u = .failure →
        (urls.map (scrapeSteamReview divText fetch)).get? i =
          some (.failure "Scraping failed" u "Error")) ∧
      (∀ p, fetch u = .ok p →
        (urls.map (scrapeSteamReview divText fetch)).get? i =
          some (.success (parseReviewPage divText p))) := by
  refine ⟨by simp, ?_⟩
  intro i u hu
  have hrec : (urls.map (scrapeSteamReview divText fetch)).get? i =
      some (scrapeSteamReview divText fetch u) := by
    rw [List.get?_map, hu]; rfl
  constructor
  · intro hf
    rw [hrec]
    unfold scrapeSteamReview
    rw [hf]
  · intro p hp
    rw [hrec]
    unfold scrapeSteamReview
    rw [hp]

/-- Witness for C5 (amended): one failing and one succeeding sibling. -/
theorem scrapeSteamReview_per_clue_witness :
    ((["a", "b"].map (scrapeSteamReview (fun s => s)
        (fun u => if u = "a" then .failure
                  else .ok ⟨"N", "", none, none, "", "", "", none⟩))).get? 0 =
      some (.failure "Scraping failed" "a" "Error")) ∧
    ((["a", "b"].map (scrapeSteamReview (fun s => s)
        (fun u => if u = "a" then .failure
                  else .ok ⟨"N", "", none, none, "", "", "", none⟩))).get? 1 =
      some (.success (parseReviewPage (fun s => s)
        ⟨"N", "", none, none, "", "", "", none⟩))) := by
  constructor
  · exact ((scrapeSteamReview_per_clue (fun s => s)
      (fun u => if u = "a" then .failure
                else .ok ⟨"N", "", none, none, "", "", "", none⟩)
      ["a", "b"]).2 0 "a" rfl).1 (by decide)
  · exact ((scrapeSteamReview_per_clue (fun s => s)
      (fun u => if u = "a" then .failure
                else .ok ⟨"N", "", none, none, "", "", "", none⟩)
      ["a", "b"]).2 1 "b" rfl).2 ⟨"N", "", none, none, "", "", "", none⟩
      (by decide)

/-- **C8**: the parser computes each of the six fields from that field's own
selector results alone; a field whose selectors yield nothing takes its
own default (`"A Steam User"`, absent avatar, `"Not specified"`,
`"Playtime not shown"`, `"Date not found"`,
`"Could not load review text."`) while the record is still produced and the
other fields are unaffected. -/
theorem parseReviewPage_per_field (divText : String → String)
    (p q : ReviewPage) :
    ((p.personaNameText = "" → p.headerOwnText = "" →
        (parseReviewPage divText p).reviewerName = "A Steam User") ∧
      (p.avatarLastChildSrc = none → p.avatarSecondImgSrc = none →
        (parseReviewPage divText p).reviewerAvatarUrl = none) ∧
      (p.ratingSummaryText = "" →
        (parseReviewPage divText p).recommendation = "Not specified") ∧
      (p.playTimeText = "" →
        (parseReviewPage divText p).playtime = "Playtime not shown") ∧
      (p.recommendationDateText = "" →
        (parseReviewPage divText p).datePosted = "Date not found") ∧
      (p.reviewTextHtml = none →
        (parseReviewPage divText p).reviewText = "Could not load review text.")) ∧
    ((p.personaNameText = q.personaNameText → p.headerOwnText = q.headerOwnText →
        (parseReviewPage divText p).reviewerName =
          (parseReviewPage divText q).reviewerName) ∧
      (p.avatarLastChildSrc = q.avatarLastChildSrc →
          p.avatarSecondImgSrc = q.avatarSecondImgSrc →
        (parseReviewPage divText p).reviewerAvatarUrl =
          (parseReviewPage divText q).reviewerAvatarUrl) ∧
      (p.ratingSummaryText = q.ratingSummaryText →
        (parseReviewPage divText p).recommendation =
          (parseReviewPage divText q).recommendation) ∧
      (p.playTimeText = q.playTimeText →
        (parseReviewPage divText p).playtime =
          (parseReviewPage divText q).playtime) ∧
      (p.recommendationDateText = q.recommendationDateText →
        (parseReviewPage divText p).datePosted =
          (parseReviewPage divText q).datePosted) ∧
      (p.reviewTextHtml = q.reviewTextHtml →
        (parseReviewPage divText p).reviewText =
          (parseReviewPage divText q).reviewText)) := by
  refine ⟨⟨?_, ?_, ?_, ?_, ?_, ?_⟩, ⟨?_, ?_, ?_, ?_, ?_, ?_⟩⟩
  · intro h1 h2; simp [parseReviewPage, h1, h2]
  · intro h1 h2; simp [parseReviewPage, h1, h2]
  · intro h1; simp [parseReviewPage, h1]
  · intro h1; rw [show (parseReviewPage divText p).playtime
      = extractPlaytime p.playTimeText from rfl, h1]; decide
  · intro h1
    have hrf : replaceFirst "" "Posted: " "" = "" := by decide
    simp [parseReviewPage, h1, hrf]
  · intro h1; simp [parseReviewPage, h1]
  · intro h1 h2; simp [parseReviewPage, h1, h2]
  · intro h1 h2; simp [parseReviewPage, h1, h2]
  · intro h1; simp [parseReviewPage, h1]
  · intro h1; simp [parseReviewPage, h1]
  · intro h1; simp [parseReviewPage, h1]
  · intro h1; simp [parseReviewPage, h1]

/-- Witness for C8 at a review page with every selector empty. -/
theorem parseReviewPage_per_field_witness :
    (parseReviewPage (fun s => s)
        ⟨"", "", none, none, "", "", "", none⟩).reviewerName = "A Steam User" ∧
    (parseReviewPage (fun s => s)
        ⟨"", "", none, none, "", "", "", none⟩).playtime = "Playtime not shown" ∧
    (parseReviewPage (fun s => s)
        ⟨"", "", none, none, "", "", "", none⟩).reviewText =
      "Could not load review text." := by
  refine ⟨?_, ?_, ?_⟩
  · exact (parseReviewPage_per_field (fun s => s)
      ⟨"", "", none, none, "", "", "", none⟩
      ⟨"", "", none, none, "", "", "", none⟩).1.1 rfl rfl
  · exact (parseReviewPage_per_field (fun s => s)
      ⟨"", "", none, none, "", "", "", none⟩
      ⟨"", "", none, none, "", "", "", none⟩).1.2.2.2.1 rfl
  · exact (parseReviewPage_per_field (fun s => s)
      ⟨"", "", none, none, "", "", "", none⟩
      ⟨"", "", none, none, "", "", "", none⟩).1.2.2.2.2.2 rfl

/-- Counterexample to **C2** as stated: with a single active never-played
entry and a failing Block D write, the route answers
`500 Internal server error`, not a successful payload carrying the selected
entry. -/
theorem persist_failure_no_degraded_mode_cex :
    (dailyGameHandler (fun s => s) (fun _ => .failure)
        ⟨[⟨1, "Portal 2", "620", none, true⟩], []⟩ "2026-01-01" 0 true).1 =
      .error 500 "Internal server error while selecting daily game." ∧
    ¬∃ revs, (dailyGameHandler (fun s => s) (fun _ => .failure)
        ⟨[⟨1, "Portal 2", "620", none, true⟩], []⟩ "2026-01-01" 0 true).1 =
      .payload "Portal 2" "620" revs := by
  refine ⟨rfl, ?_⟩
  rintro ⟨revs, h⟩
  rw [show (dailyGameHandler (fun s => s) (fun _ => .failure)
        ⟨[⟨1, "Portal 2", "620", none, true⟩], []⟩ "2026-01-01" 0 true).1 =
      .error 500 "Internal server error while selecting daily game." from rfl] at h
  exact DailyResponse.noConfusion h

/-- **C2 (amended)**: if the Daily Selector picks a new entry (no active
entry was already marked with today's date) and the Block D write fails,
the rejected promise is caught by the route's `catch`: the handler responds
`500 { error: "Internal server error while selecting daily game." }`, the
database is left unchanged, no clue source is fetched, and the selected
entry is not returned. -/
theorem persist_failure_returns_500 (divText : String → String)
    (fetch : String → FetchResult) (db : Db) (today : String) (r : Nat)
    (g : GameRow) (hA : blockA db.games today = none)
    (hsel : servedGame db.games today r false = some g) :
    dailyGameHandler divText fetch db today r true =
      (.error 500 "Internal server error while selecting daily game.", db, []) := by
  unfold dailyGameHandler
  unfold servedGame at hsel
  rw [hA] at hsel ⊢
  cases hB : pickRandom (blockBCands db.games) r with
  | some gB => simp [hB]
  | none =>
      rw [hB] at hsel
      cases hC : pickRandom (blockCCands db.games) r with
      | some gC => simp [hB, hC]
      | none => rw [hC] at hsel; exact absurd hsel (by simp)

/-- Whenever `servedGame` names a row, the handler's response and fetch
trace are those of `fetchReviewsForGameAndRespond` on that row. -/
theorem dailyGameHandler_of_served (divText : String → String)
    (fetch : String → FetchResult) (db : Db) (today : String) (r : Nat)
    (pf : Bool) (g : GameRow)
    (h : servedGame db.games today r pf = some g) :
    (dailyGameHandler divText fetch db today r pf).1 =
      (fetchReviewsForGameAndRespond divText fetch db.game_reviews g).1 ∧
    (dailyGameHandler divText fetch db today r pf).2.2 =
      (fetchReviewsForGameAndRespond divText fetch db.game_reviews g).2 := by
  unfold dailyGameHandler
  unfold servedGame at h
  cases hA : blockA db.games today with
  | some g0 =>
      rw [hA] at h
      simp only [Option.some.injEq] at h
      subst h
      simp
  | none =>
      rw [hA] at h
      cases hB : pickRandom (blockBCands db.games) r with
      | some gB =>
          rw [hB] at h
          cases pf with
          | true => simp at h
          | false =>
              simp only [if_neg (by simp : ¬(false = true)),
                Option.some.injEq] at h
              subst h
              simp [hB]
      | none =>
          rw [hB] at h
          cases hC : pickRandom (blockCCands db.games) r with
          | some gC =>
              rw [hC] at h
              cases pf with
              | true => simp at h
              | false =>
                  simp only [if_neg (by simp : ¬(false = true)),
                    Option.some.injEq] at h
                  subst h
                  simp [hB, hC]
          | none => rw [hC] at h; exact absurd h (by simp)

/-- **C6**: when the served entry has no stored clue-source references, the
review acquisition returns the empty list and the route responds with the
success payload `{ title, appId, reviews: [] }`, not an error. -/
theorem emptyClueList_yields_empty_payload (divText : String → String)
    (fetch : String → FetchResult) (db : Db) (today : String) (r : Nat)
    (pf : Bool) (g : GameRow)
    (hserved : servedGame db.games today r pf = some g)
    (hempty : orderedReviewUrls db.game_reviews g.id = []) :
    (dailyGameHandler divText fetch db today r pf).1 =
      .payload g.title g.steam_app_id [] := by
  rw [(dailyGameHandler_of_served divText fetch db today r pf g hserved).1]
  unfold fetchReviewsForGameAndRespond
  simp [hempty]

/-- Witness for C6: a single active entry with an empty `game_reviews`
table. -/
theorem emptyClueList_yields_empty_payload_witness :
    (dailyGameHandler (fun s => s) (fun _ => .failure)
        ⟨[⟨1, "Portal 2", "620", none, true⟩], []⟩ "2026-01-01" 0 false).1 =
      .payload "Portal 2" "620" [] :=
  emptyClueList_yields_empty_payload (fun s => s) (fun _ => .failure)
    ⟨[⟨1, "Portal 2", "620", none, true⟩], []⟩ "2026-01-01" 0 false
    ⟨1, "Portal 2", "620", none, true⟩ (by decide) (by decide)

/-- **C7**: a successful payload's `reviews` list is the position-preserving
image of the entry's stored clue-source references ordered by `clue_order`
and capped by `LIMIT 6`: its length is `min (#refs) 6`, never more than
6, and the record at each position comes from the reference at the same
position. -/
theorem reviews_match_refs_capped_at_six (divText : String → String)
    (fetch : String → FetchResult) (db : Db) (today : String) (r : Nat)
    (pf : Bool) (g : GameRow)
    (hserved : servedGame db.games today r pf = some g) :
    (dailyGameHandler divText fetch db today r pf).1 =
      .payload g.title g.steam_app_id
        (((orderedReviewUrls db.game_reviews g.id).take 6).map
          (scrapeSteamReview divText fetch)) ∧
    (((orderedReviewUrls db.game_reviews g.id).take 6).map
        (scrapeSteamReview divText fetch)).length =
      min (orderedReviewUrls db.game_reviews g.id).length 6 ∧
    (((orderedReviewUrls db.game_reviews g.id).take 6).map
        (scrapeSteamReview divText fetch)).length ≤ 6 := by
  refine ⟨?_, ?_, ?_⟩
  · rw [(dailyGameHandler_of_served divText fetch db today r pf g hserved).1]
    unfold fetchReviewsForGameAndRespond
    by_cases hu : ((orderedReviewUrls db.game_reviews g.id).take 6) = []
    · simp [hu]
    · simp [hu, List.isEmpty_iff]
  · simp [List.length_take, Nat.min_comm]
  · simp [List.length_take]

/-- Witness for C7: two stored references, both scraped in order. -/
theorem reviews_match_refs_capped_at_six_witness :
    (dailyGameHandler (fun s => s) (fun _ => .failure)
        ⟨[⟨1, "Portal 2", "620", none, true⟩],
          [⟨1, "u1", 1⟩, ⟨1, "u2", 2⟩]⟩ "2026-01-01" 0 false).1 =
      .payload "Portal 2" "620"
        (((orderedReviewUrls [⟨1, "u1", 1⟩, ⟨1, "u2", 2⟩] 1).take 6).map
          (scrapeSteamReview (fun s => s) (fun _ => .failure))) :=
  (reviews_match_refs_capped_at_six (fun s => s) (fun _ => .failure)
    ⟨[⟨1, "Portal 2", "620", none, true⟩], [⟨1, "u1", 1⟩, ⟨1, "u2", 2⟩]⟩
    "2026-01-01" 0 false ⟨1, "Portal 2", "620", none, true⟩ (by decide)).1

/-- `UPDATE … WHERE id = ?` leaves a table without that id unchanged. -/
theorem markPlayed_eq_self (l : List GameRow) (gid : Nat) (d : String)
    (h : ∀ g ∈ l, g.id ≠ gid) : markPlayed l gid d = l := by
  induction l with
  | nil => rfl
  | cons a t ih =>
      unfold markPlayed
      simp only [List.map_cons]
      rw [if_neg (by simp [h a (by simp)])]
      have ht := ih (fun g hg => h g (by simp [hg]))
      unfold markPlayed at ht
      rw [ht]

/-- Number of rows of the games table changed between two states of equal
length. -/
def changedRows (old new : List GameRow) : Nat :=
  ((old.zip new).filter (fun p => !(p.1 == p.2))).length

theorem changedRows_self (l : List GameRow) : changedRows l l = 0 := by
  induction l with
  | nil => rfl
  | cons a t ih =>
      unfold changedRows at *
      simp only [List.zip_cons_cons, List.filter]
      rw [show (!(a == a)) = false by simp]
      exact ih

theorem changedRows_markPlayed (l : List GameRow) (gid : Nat) (d : String)
    (hnodup : (l.map (fun g => g.id)).Nodup) :
    changedRows l (markPlayed l gid d) ≤ 1 := by
  induction l with
  | nil => simp [changedRows, markPlayed]
  | cons a t ih =>
      simp only [List.map_cons, List.nodup_cons] at hnodup
      unfold markPlayed
      simp only [List.map_cons]
      by_cases ha : a.id = gid
      · rw [if_pos (by simp [ha])]
        have ht : markPlayed t gid d = t := by
          apply markPlayed_eq_self
          intro g hg hgid
          have hmem : g.id ∈ t.map (fun g => g.id) :=
            List.mem_map_of_mem (fun g => g.id) hg
          rw [hgid, ← ha] at hmem
          exact hnodup.1 hmem
        unfold markPlayed at ht
        rw [ht]
        have h0 := changedRows_self t
        unfold changedRows at h0 ⊢
        simp only [List.zip_cons_cons, List.filter_cons]
        split
        · simp only [List.length_cons]
          omega
        · omega
      · rw [if_neg (by simp [ha])]
        have h1 := ih hnodup.2
        unfold changedRows at h1 ⊢
        unfold markPlayed at h1
        simp only [List.zip_cons_cons, List.filter_cons]
        rw [if_neg (by simp : ¬((!(a == a)) = true))]
        exact h1

/-- The database after a request is either unchanged or differs exactly by
one `markPlayed` update. -/
theorem dailyGameHandler_db_cases (divText : String → String)
    (fetch : String → FetchResult) (db : Db) (today : String) (r : Nat)
    (pf : Bool) :
    (dailyGameHandler divText fetch db today r pf).2.1 = db ∨
    ∃ g : GameRow, (dailyGameHandler divText fetch db today r pf).2.1 =
      { db with games := markPlayed db.games g.id today } := by
  unfold dailyGameHandler
  cases hA : blockA db.games today with
  | some g0 => left; rfl
  | none =>
      cases hB : pickRandom (blockBCands db.games) r with
      | some gB =>
          cases pf with
          | true => left; rfl
          | false => right; exact ⟨gB, rfl⟩
      | none =>
          cases hC : pickRandom (blockCCands db.games) r with
          | some gC =>
              cases pf with
              | true => left; rfl
              | false => right; exact ⟨gC, rfl⟩
          | none => left; rfl

/-- **C4**: on one request the selection writes at most one row, at most
once: if some active entry is already marked with today's date (Block A
hit), that entry is served and the database is not modified at all; on
every path at most one row of `games` changes and `game_reviews` is never
written. -/
theorem at_most_one_mark_per_request (divText : String → String)
    (fetch : String → FetchResult) (db : Db) (today : String) (r : Nat)
    (pf : Bool) (hnodup : (db.games.map (fun g => g.id)).Nodup) :
    (∀ g, blockA db.games today = some g →
        (dailyGameHandler divText fetch db today r pf).2.1 = db ∧
        (dailyGameHandler divText fetch db today r pf).1 =
          (fetchReviewsForGameAndRespond divText fetch db.game_reviews g).1) ∧
    (dailyGameHandler divText fetch db today r pf).2.1.game_reviews =
      db.game_reviews ∧
    changedRows db.games
      (dailyGameHandler divText fetch db today r pf).2.1.games ≤ 1 := by
  refine ⟨?_, ?_, ?_⟩
  · intro g hg
    unfold dailyGameHandler
    rw [hg]
    exact ⟨rfl, rfl⟩
  · rcases dailyGameHandler_db_cases divText fetch db today r pf with h | ⟨g, h⟩
    · rw [h]
    · rw [h]
  · rcases dailyGameHandler_db_cases divText fetch db today r pf with h | ⟨g, h⟩
    · rw [h]
      exact Nat.le_of_eq (changedRows_self db.games) |>.trans (by omega)
    · rw [h]
      exact changedRows_markPlayed db.games g.id today hnodup

/-- Witness for C4: Block A hit leaves the database untouched. -/
theorem at_most_one_mark_per_request_witness :
    (dailyGameHandler (fun s => s) (fun _ => .failure)
        ⟨[⟨1, "Portal 2", "620", some "2026-01-01", true⟩], []⟩
        "2026-01-01" 0 false).2.1 =
      ⟨[⟨1, "Portal 2", "620", some "2026-01-01", true⟩], []⟩ ∧
    changedRows [⟨1, "Portal 2", "620", some "2026-01-01", true⟩]
      (dailyGameHandler (fun s => s) (fun _ => .failure)
        ⟨[⟨1, "Portal 2", "620", some "2026-01-01", true⟩], []⟩
        "2026-01-01" 0 false).2.1.games ≤ 1 :=
  ⟨((at_most_one_mark_per_request (fun s => s) (fun _ => .failure)
      ⟨[⟨1, "Portal 2", "620", some "2026-01-01", true⟩], []⟩
      "2026-01-01" 0 false (by decide)).1
      ⟨1, "Portal 2", "620", some "2026-01-01", true⟩ (by decide)).1,
    (at_most_one_mark_per_request (fun s => s) (fun _ => .failure)
      ⟨[⟨1, "Portal 2", "620", some "2026-01-01", true⟩], []⟩
      "2026-01-01" 0 false (by decide)).2.2⟩

theorem dateLe_refl (x : Option String) : dateLe x x = true := by
  cases x <;> simp [dateLe]

theorem dateLe_total (x y : Option String) :
    dateLe x y = true ∨ dateLe y x = true := by
  cases x <;> cases y <;> simp [dateLe]
  exact le_total _ _

theorem dateLe_trans {x y z : Option String} (h1 : dateLe x y = true)
    (h2 : dateLe y z = true) : dateLe x z = true := by
  cases x <;> cases y <;> cases z <;> simp [dateLe] at *
  exact le_trans h1 h2

/-- A nonempty list of rows has a row with minimal `last_played_on`. -/
theorem exists_min_dateLe (l : List GameRow) (hne : l ≠ []) :
    ∃ g ∈ l, ∀ h ∈ l, dateLe g.last_played_on h.last_played_on = true := by
  induction l with
  | nil => exact absurd rfl hne
  | cons a t ih =>
      cases t with
      | nil =>
          refine ⟨a, by simp, ?_⟩
          intro h hh
          rw [List.mem_singleton] at hh
          subst hh
          exact dateLe_refl _
      | cons b t2 =>
          obtain ⟨m, hm, hmin⟩ := ih (by simp)
          rcases dateLe_total a.last_played_on m.last_played_on with ham | hma
          · refine ⟨a, by simp, ?_⟩
            intro h hh
            rcases List.mem_cons.mp hh with rfl | hh2
            · exact dateLe_refl _
            · exact dateLe_trans ham (hmin h hh2)
          · refine ⟨m, List.mem_cons_of_mem _ hm, ?_⟩
            intro h hh
            rcases List.mem_cons.mp hh with rfl | hh2
            · exact hma
            · exact hmin h hh2

theorem pickRandom_mem {cands : List GameRow} {r : Nat} {g : GameRow}
    (h : pickRandom cands r = some g) : g ∈ cands := by
  unfold pickRandom at h
  exact List.get?_mem h

theorem pickRandom_isSome (cands : List GameRow) (r : Nat)
    (hne : cands ≠ []) :
    ∃ g, pickRandom cands r = some g ∧ g ∈ cands := by
  unfold pickRandom
  have hlen : 0 < cands.length := List.length_pos.mpr hne
  have hlt : r % cands.length < cands.length := Nat.mod_lt _ hlen
  exact ⟨cands.get ⟨r % cands.length, hlt⟩, List.get?_eq_get hlt,
    List.get_mem _ _ hlt⟩

/-- Every candidate is reachable by some value of the randomness oracle. -/
theorem pickRandom_reach {cands : List GameRow} {g : GameRow}
    (h : g ∈ cands) : ∃ r, pickRandom cands r = some g := by
  obtain ⟨n, hget⟩ := List.mem_iff_get.mp h
  refine ⟨n.1, ?_⟩
  unfold pickRandom
  rw [Nat.mod_eq_of_lt n.isLt, List.get?_eq_get n.isLt]
  simpa using congrArg some hget

/-- Membership in Block C's candidate set characterised. -/
theorem blockCCands_spec (games : List GameRow) (g : GameRow) :
    g ∈ blockCCands games ↔
      (g ∈ games ∧ g.is_active = true ∧
        ∀ h ∈ games, h.is_active = true →
          dateLe g.last_played_on h.last_played_on = true) := by
  unfold blockCCands
  simp only [List.mem_filter, List.all_eq_true]
  constructor
  · rintro ⟨⟨hg, hact⟩, hall⟩
    refine ⟨hg, hact, ?_⟩
    intro h hh hhact
    exact hall h ⟨hh, hhact⟩
  · rintro ⟨hg, hact, hall⟩
    refine ⟨⟨hg, hact⟩, ?_⟩
    rintro h ⟨hh2, hhact⟩
    exact hall h hh2 hhact

theorem blockCCands_ne_nil (games : List GameRow)
    (hne : games.filter (fun g => g.is_active) ≠ []) :
    blockCCands games ≠ [] := by
  obtain ⟨m, hm, hmin⟩ := exists_min_dateLe _ hne
  intro hnil
  obtain ⟨hm2, hmact⟩ := List.mem_filter.mp hm
  have hmem : m ∈ blockCCands games := by
    refine (blockCCands_spec games m).mpr ⟨hm2, hmact, ?_⟩
    intro h hh hhact
    exact hmin h (List.mem_filter.mpr ⟨hh, hhact⟩)
  rw [hnil] at hmem
  exact absurd hmem (List.not_mem_nil m)

/-- Block A finds nothing when no active row carries today's date. -/
theorem blockA_eq_none (games : List GameRow) (today : String)
    (h : ∀ g ∈ games, g.is_active = true → g.last_played_on ≠ some today) :
    blockA games today = none := by
  unfold blockA
  rw [List.head?_eq_none_iff, List.filter_eq_nil]
  intro g hg
  simp only [Bool.and_eq_true, beq_iff_eq, not_and]
  intro hact
  exact h g hg hact

/-- Block B finds nothing when every active row has a non-null date. -/
theorem blockBCands_eq_nil (games : List GameRow)
    (h : ∀ g ∈ games, g.is_active = true → g.last_played_on ≠ none) :
    blockBCands games = [] := by
  unfold blockBCands
  rw [List.filter_eq_nil]
  intro g hg
  simp only [Bool.and_eq_true, beq_iff_eq, not_and]
  intro hact
  exact h g hg hact

/-- **C9**: when every active entry has a non-null last-played date and
none of those dates equals today, the selector picks an active entry whose
`last_played_on` is globally minimal among active entries, and every
minimal active entry is reachable for some value of the `RANDOM()`
tie-break oracle. -/
theorem all_played_selects_oldest (games : List GameRow) (today : String)
    (r : Nat) (hact : games.filter (fun g => g.is_active) ≠ [])
    (hplayed : ∀ g ∈ games, g.is_active = true → g.last_played_on ≠ none)
    (hnottoday : ∀ g ∈ games, g.is_active = true →
      g.last_played_on ≠ some today) :
    (∃ g, (dailySelectGames games today r).1 = some g ∧ g ∈ games ∧
        g.is_active = true ∧
        ∀ h ∈ games, h.is_active = true →
          dateLe g.last_played_on h.last_played_on = true) ∧
    (∀ h ∈ games, h.is_active = true →
      (∀ h2 ∈ games, h2.is_active = true →
        dateLe h.last_played_on h2.last_played_on = true) →
      ∃ r2, (dailySelectGames games today r2).1 = some h) := by
  have hA := blockA_eq_none games today hnottoday
  have hB := blockBCands_eq_nil games hplayed
  have hBpick : ∀ r' : Nat, pickRandom (blockBCands games) r' = none := by
    intro r'
    rw [hB]
    unfold pickRandom
    simp
  constructor
  · obtain ⟨g, hpick, hmem⟩ :=
      pickRandom_isSome _ r (blockCCands_ne_nil games hact)
    obtain ⟨hg, hact2, hmin⟩ := (blockCCands_spec games g).mp hmem
    refine ⟨g, ?_, hg, hact2, hmin⟩
    unfold dailySelectGames
    rw [hA, hBpick r, hpick]
  · intro h hh hhact hmin
    have hmem : h ∈ blockCCands games :=
      (blockCCands_spec games h).mpr ⟨hh, hhact, hmin⟩
    obtain ⟨r2, hr2⟩ := pickRandom_reach hmem
    refine ⟨r2, ?_⟩
    unfold dailySelectGames
    rw [hA, hBpick r2, hr2]

/-- Witness for C9: two active entries, both already played, the older one
(`2026-01-01`) is picked. -/
theorem all_played_selects_oldest_witness :
    ∃ g : GameRow, (dailySelectGames
        [⟨1, "A", "a", some "2026-01-02", true⟩,
         ⟨2, "B", "b", some "2026-01-01", true⟩] "2026-01-05" 0).1 = some g ∧
      g ∈ ([⟨1, "A", "a", some "2026-01-02", true⟩,
            ⟨2, "B", "b", some "2026-01-01", true⟩] : List GameRow) ∧
      g.is_active = true ∧
      ∀ h ∈ ([⟨1, "A", "a", some "2026-01-02", true⟩,
              ⟨2, "B", "b", some "2026-01-01", true⟩] : List GameRow),
        h.is_active = true →
        dateLe g.last_played_on h.last_played_on = true :=
  (all_played_selects_oldest
    [⟨1, "A", "a", some "2026-01-02", true⟩,
     ⟨2, "B", "b", some "2026-01-01", true⟩] "2026-01-05" 0
    (by decide) (by decide) (by decide)).1

/-- `fetchReviewsForGameAndRespond` reads only the served row's `id`,
`title` and `steam_app_id` (the columns Block A selects). -/
theorem fetchReviews_proj (divText : String → String)
    (fetch : String → FetchResult) (rows : List ReviewRow) (g g' : GameRow)
    (hid : g'.id = g.id) (ht : g'.title = g.title)
    (ha : g'.steam_app_id = g.steam_app_id) :
    fetchReviewsForGameAndRespond divText fetch rows g' =
      fetchReviewsForGameAndRespond divText fetch rows g := by
  unfold fetchReviewsForGameAndRespond
  rw [hid, ht, ha]

/-- With distinct ids, two rows of the table sharing an id are equal. -/
theorem nodup_ids_unique {l : List GameRow}
    (hnodup : (l.map (fun g => g.id)).Nodup) {a b : GameRow}
    (ha : a ∈ l) (hb : b ∈ l) (hid : a.id = b.id) : a = b := by
  induction l with
  | nil => cases ha
  | cons c t ih =>
      simp only [List.map_cons, List.nodup_cons] at hnodup
      rcases List.mem_cons.mp ha with rfl | ha2
      · rcases List.mem_cons.mp hb with rfl | hb2
        · rfl
        · have hmem : b.id ∈ t.map (fun g => g.id) :=
            List.mem_map_of_mem (fun g => g.id) hb2
          rw [← hid] at hmem
          exact absurd hmem hnodup.1
      · rcases List.mem_cons.mp hb with rfl | hb2
        · have hmem : a.id ∈ t.map (fun g => g.id) :=
            List.mem_map_of_mem (fun g => g.id) ha2
          rw [hid] at hmem
          exact absurd hmem hnodup.1
        · exact ih hnodup.2 ha2 hb2

/-- After Block D marks the selected row, Block A of a later same-day
request finds exactly that row (with today's date written). -/
theorem blockA_markPlayed (games : List GameRow) (g : GameRow)
    (today : String)
    (hnone : ∀ h ∈ games,
      ¬((h.is_active && h.last_played_on == some today) = true))
    (hg : g ∈ games) (hact : g.is_active = true)
    (huniq : ∀ h ∈ games, h.id = g.id → h = g) :
    blockA (markPlayed games g.id today) today =
      some { g with last_played_on := some today } := by
  induction games with
  | nil => cases hg
  | cons a t ih =>
      unfold blockA markPlayed
      simp only [List.map_cons]
      by_cases hid : a.id = g.id
      · have ha : a = g := huniq a (List.mem_cons_self a t) hid
        subst ha
        rw [if_pos (by simp)]
        simp only [List.filter_cons]
        rw [if_pos (by simp [hact])]
        rfl
      · rw [if_neg (by simp [hid])]
        have hg2 : g ∈ t := by
          rcases List.mem_cons.mp hg with rfl | h2
          · exact absurd rfl hid
          · exact h2
        simp only [List.filter_cons]
        rw [if_neg (hnone a (List.mem_cons_self a t))]
        have := ih (fun h hh => hnone h (List.mem_cons_of_mem a hh)) hg2
          (fun h hh hid2 => huniq h (List.mem_cons_of_mem a hh) hid2)
        unfold blockA markPlayed at this
        exact this

/-- `getAndScrapeReviewDataForGame` always returns the success data object
for the selected row (clue records in clue order, capped at 6). -/
theorem getAndScrape_payload (divText : String → String)
    (fetch : String → FetchResult) (rows : List ReviewRow) (g : GameRow) :
    (getAndScrapeReviewDataForGame divText fetch rows g).1 =
      .payload g.title g.steam_app_id
        (((orderedReviewUrls rows g.id).take 6).map
          (scrapeSteamReview divText fetch)) := by
  unfold getAndScrapeReviewDataForGame
  by_cases h : ((orderedReviewUrls rows g.id).take 6) = []
  · simp [h]
  · simp [h, List.isEmpty_iff]

/-- `cacheAndRespond` responds 200 with the scraped payload and stores
that same payload in today's cache slot. -/
theorem cacheAndRespond_eq (divText : String → String)
    (fetch : String → FetchResult) (db : Db) (today : String) (g : GameRow) :
    cacheAndRespond divText fetch db today g =
      ⟨.payload g.title g.steam_app_id
          (((orderedReviewUrls db.game_reviews g.id).take 6).map
            (scrapeSteamReview divText fetch)),
        db,
        ⟨some today, some (.payload g.title g.steam_app_id
          (((orderedReviewUrls db.game_reviews g.id).take 6).map
            (scrapeSteamReview divText fetch)))⟩,
        (getAndScrapeReviewDataForGame divText fetch db.game_reviews g).2,
        true⟩ := by
  unfold cacheAndRespond
  rw [getAndScrape_payload]

/-- A filled slot is served directly: no selection, no catalog query, no
fetch, database and cache untouched. -/
theorem cachedHandler_hit (divText : String → String)
    (fetch : String → FetchResult) (db : Db) (cache : DailyGameCache)
    (today : String) (r : Nat) (pf : Bool) (gd : GameData)
    (hd : cache.date = some today) (hg : cache.gameData = some gd) :
    dailyGameCachedHandler divText fetch db cache today r pf =
      ⟨slotResponse gd, db, cache, [], false⟩ := by
  unfold dailyGameCachedHandler
  rw [hg]
  simp [hd]

/-- The cache-miss body always fills today's slot, and whenever it answers
with a success payload the slot holds exactly that payload. -/
theorem missPath_slot (divText : String → String)
    (fetch : String → FetchResult) (db : Db) (today : String) (r : Nat)
    (pf : Bool) :
    ∃ gd,
      (dailyGameCacheMissPath divText fetch db today r pf).cache.date =
        some today ∧
      (dailyGameCacheMissPath divText fetch db today r pf).cache.gameData =
        some gd ∧
      ∀ t a revs,
        (dailyGameCacheMissPath divText fetch db today r pf).response =
          .payload t a revs → gd = GameData.payload t a revs := by
  cases hA : blockA db.games today with
  | some g =>
      have e : dailyGameCacheMissPath divText fetch db today r pf =
          cacheAndRespond divText fetch db today g := by
        unfold dailyGameCacheMissPath
        rw [hA]
        try rfl
      rw [e, cacheAndRespond_eq]
      refine ⟨_, rfl, rfl, ?_⟩
      intro t a revs h
      simp only [DailyResponse.payload.injEq] at h
      obtain ⟨h1, h2, h3⟩ := h
      subst h1
      subst h2
      subst h3
      rfl
  | none =>
      cases hB : pickRandom (blockBCands db.games) r with
      | some gB =>
          cases pf with
          | true =>
              have e : dailyGameCacheMissPath divText fetch db today r true =
                  ⟨.errorData 500
                      "Internal server error while selecting daily game.",
                    db,
                    ⟨some today, some (.errorData
                      "Internal server error while selecting daily game.")⟩,
                    [], true⟩ := by
                unfold dailyGameCacheMissPath
                rw [hA, hB]
                try rfl
              rw [e]
              refine ⟨.errorData
                "Internal server error while selecting daily game.",
                rfl, rfl, ?_⟩
              intro t a revs h
              exact absurd h (by simp)
          | false =>
              have e : dailyGameCacheMissPath divText fetch db today r false =
                  cacheAndRespond divText fetch
                    { db with games := markPlayed db.games gB.id today }
                    today gB := by
                unfold dailyGameCacheMissPath
                rw [hA, hB]
                try rfl
              rw [e, cacheAndRespond_eq]
              refine ⟨_, rfl, rfl, ?_⟩
              intro t a revs h
              simp only [DailyResponse.payload.injEq] at h
              obtain ⟨h1, h2, h3⟩ := h
              subst h1
              subst h2
              subst h3
              rfl
      | none =>
          cases hC : pickRandom (blockCCands db.games) r with
          | some gC =>
              cases pf with
              | true =>
                  have e : dailyGameCacheMissPath divText fetch db today r
                      true =
                      ⟨.errorData 500
                          "Internal server error while selecting daily game.",
                        db,
                        ⟨some today, some (.errorData
                          "Internal server error while selecting daily game.")⟩,
                        [], true⟩ := by
                    unfold dailyGameCacheMissPath
                    rw [hA, hB, hC]
                    try rfl
                  rw [e]
                  refine ⟨.errorData
                    "Internal server error while selecting daily game.",
                    rfl, rfl, ?_⟩
                  intro t a revs h
                  exact absurd h (by simp)
              | false =>
                  have e : dailyGameCacheMissPath divText fetch db today r
                      false =
                      cacheAndRespond divText fetch
                        { db with games := markPlayed db.games gC.id today }
                        today gC := by
                    unfold dailyGameCacheMissPath
                    rw [hA, hB, hC]
                    try rfl
                  rw [e, cacheAndRespond_eq]
                  refine ⟨_, rfl, rfl, ?_⟩
                  intro t a revs h
                  simp only [DailyResponse.payload.injEq] at h
                  obtain ⟨h1, h2, h3⟩ := h
                  subst h1
                  subst h2
                  subst h3
                  rfl
          | none =>
              have e : dailyGameCacheMissPath divText fetch db today r pf =
                  ⟨.errorData 500 "No games available to select for today.",
                    db,
                    ⟨some today, some (.errorData
                      "No games available to select for today.")⟩,
                    [], true⟩ := by
                unfold dailyGameCacheMissPath
                rw [hA, hB, hC]
                try rfl
              rw [e]
              refine ⟨.errorData "No games available to select for today.",
                rfl, rfl, ?_⟩
              intro t a revs h
              exact absurd h (by simp)

/-- Every request leaves today's slot filled, holding the payload the
request answered with whenever that answer was a success payload. -/
theorem cachedHandler_slot (divText : String → String)
    (fetch : String → FetchResult) (db : Db) (cache : DailyGameCache)
    (today : String) (r : Nat) (pf : Bool) :
    ∃ gd,
      (dailyGameCachedHandler divText fetch db cache today r pf).cache.date =
        some today ∧
      (dailyGameCachedHandler divText fetch db cache today r pf).cache.gameData =
        some gd ∧
      ∀ t a revs,
        (dailyGameCachedHandler divText fetch db cache today r pf).response =
          .payload t a revs → gd = GameData.payload t a revs := by
  cases hgd : cache.gameData with
  | some gd0 =>
      by_cases hdate : cache.date = some today
      · rw [cachedHandler_hit divText fetch db cache today r pf gd0 hdate hgd]
        cases gd0 with
        | errorData msg =>
            refine ⟨.errorData msg, hdate, hgd, ?_⟩
            intro t a revs h
            exact absurd h (by simp [slotResponse])
        | payload t0 a0 revs0 =>
            refine ⟨.payload t0 a0 revs0, hdate, hgd, ?_⟩
            intro t a revs h
            simp only [slotResponse, DailyResponse.payload.injEq] at h
            obtain ⟨h1, h2, h3⟩ := h
            subst h1
            subst h2
            subst h3
            rfl
      · have e : dailyGameCachedHandler divText fetch db cache today r pf =
            dailyGameCacheMissPath divText fetch db today r pf := by
          unfold dailyGameCachedHandler
          rw [hgd]
          show (if cache.date = some today
              then (⟨slotResponse gd0, db, cache, [], false⟩ :
                CachedRequestResult)
              else dailyGameCacheMissPath divText fetch db today r pf) =
            dailyGameCacheMissPath divText fetch db today r pf
          rw [if_neg hdate]
        rw [e]
        exact missPath_slot divText fetch db today r pf
  | none =>
      have e : dailyGameCachedHandler divText fetch db cache today r pf =
          dailyGameCacheMissPath divText fetch db today r pf := by
        unfold dailyGameCachedHandler
        rw [hgd]
      rw [e]
      exact missPath_slot divText fetch db today r pf

/-- With at least one active entry and a successful Block D write, a
cache-miss request answers with a success payload. -/
theorem missPath_payload (divText : String → String)
    (fetch : String → FetchResult) (db : Db) (today : String) (r : Nat)
    (hact : db.games.filter (fun g => g.is_active) ≠ []) :
    ∃ t a revs,
      (dailyGameCacheMissPath divText fetch db today r false).response =
        .payload t a revs := by
  cases hA : blockA db.games today with
  | some g =>
      have e : dailyGameCacheMissPath divText fetch db today r false =
          cacheAndRespond divText fetch db today g := by
        unfold dailyGameCacheMissPath
        rw [hA]
        try rfl
      rw [e, cacheAndRespond_eq]
      exact ⟨g.title, g.steam_app_id, _, rfl⟩
  | none =>
      cases hB : pickRandom (blockBCands db.games) r with
      | some gB =>
          have e : dailyGameCacheMissPath divText fetch db today r false =
              cacheAndRespond divText fetch
                { db with games := markPlayed db.games gB.id today }
                today gB := by
            unfold dailyGameCacheMissPath
            rw [hA, hB]
            try rfl
          rw [e, cacheAndRespond_eq]
          exact ⟨gB.title, gB.steam_app_id, _, rfl⟩
      | none =>
          obtain ⟨gC, hC, _⟩ :=
            pickRandom_isSome _ r (blockCCands_ne_nil db.games hact)
          have e : dailyGameCacheMissPath divText fetch db today r false =
              cacheAndRespond divText fetch
                { db with games := markPlayed db.games gC.id today }
                today gC := by
            unfold dailyGameCacheMissPath
            rw [hA, hB, hC]
            try rfl
          rw [e, cacheAndRespond_eq]
          exact ⟨gC.title, gC.steam_app_id, _, rfl⟩

/-- **C1**: calling the cache-integrated `GET /api/daily-game` twice on
the same date serves the second call from the date-keyed cache slot: the
second call fetches no clue source, runs no catalog query, changes neither
database nor cache, and re-serves any success payload of the first call
bit-identically; and when the slot was not yet keyed to today, the catalog
has an active entry and the rotation write succeeds, the first call's
answer is such a success payload. -/
theorem daily_cache_second_call_served_from_slot (divText : String → String)
    (fetch : String → FetchResult) (db : Db) (cache : DailyGameCache)
    (today : String) (r1 r2 : Nat) (pf1 pf2 : Bool) :
    ((dailyGameCachedHandler divText fetch
        (dailyGameCachedHandler divText fetch db cache today r1 pf1).db
        (dailyGameCachedHandler divText fetch db cache today r1 pf1).cache
        today r2 pf2).fetched = [] ∧
      (dailyGameCachedHandler divText fetch
        (dailyGameCachedHandler divText fetch db cache today r1 pf1).db
        (dailyGameCachedHandler divText fetch db cache today r1 pf1).cache
        today r2 pf2).catalogQueried = false ∧
      (dailyGameCachedHandler divText fetch
        (dailyGameCachedHandler divText fetch db cache today r1 pf1).db
        (dailyGameCachedHandler divText fetch db cache today r1 pf1).cache
        today r2 pf2).db =
        (dailyGameCachedHandler divText fetch db cache today r1 pf1).db ∧
      (dailyGameCachedHandler divText fetch
        (dailyGameCachedHandler divText fetch db cache today r1 pf1).db
        (dailyGameCachedHandler divText fetch db cache today r1 pf1).cache
        today r2 pf2).cache =
        (dailyGameCachedHandler divText fetch db cache today r1 pf1).cache) ∧
    (∀ t a revs,
      (dailyGameCachedHandler divText fetch db cache today r1 pf1).response =
        .payload t a revs →
      (dailyGameCachedHandler divText fetch
        (dailyGameCachedHandler divText fetch db cache today r1 pf1).db
        (dailyGameCachedHandler divText fetch db cache today r1 pf1).cache
        today r2 pf2).response = .payload t a revs) ∧
    (cache.date ≠ some today →
      db.games.filter (fun g => g.is_active) ≠ [] → pf1 = false →
      ∃ t a revs,
        (dailyGameCachedHandler divText fetch db cache today r1 pf1).response =
          .payload t a revs) := by
  obtain ⟨gd, hd, hg, hpay⟩ :=
    cachedHandler_slot divText fetch db cache today r1 pf1
  have hhit := cachedHandler_hit divText fetch
    (dailyGameCachedHandler divText fetch db cache today r1 pf1).db
    (dailyGameCachedHandler divText fetch db cache today r1 pf1).cache
    today r2 pf2 gd hd hg
  refine ⟨⟨?_, ?_, ?_, ?_⟩, ?_, ?_⟩
  · rw [hhit]
  · rw [hhit]
  · rw [hhit]
  · rw [hhit]
  · intro t a revs h1
    rw [hhit, hpay t a revs h1]
    rfl
  · intro hdate hact hpf
    subst hpf
    cases hgd : cache.gameData with
    | some gd0 =>
        have e : dailyGameCachedHandler divText fetch db cache today r1 false =
            dailyGameCacheMissPath divText fetch db today r1 false := by
          unfold dailyGameCachedHandler
          rw [hgd]
          show (if cache.date = some today
              then (⟨slotResponse gd0, db, cache, [], false⟩ :
                CachedRequestResult)
              else dailyGameCacheMissPath divText fetch db today r1 false) =
            dailyGameCacheMissPath divText fetch db today r1 false
          rw [if_neg hdate]
        rw [e]
        exact missPath_payload divText fetch db today r1 hact
    | none =>
        have e : dailyGameCachedHandler divText fetch db cache today r1 false =
            dailyGameCacheMissPath divText fetch db today r1 false := by
          unfold dailyGameCachedHandler
          rw [hgd]
        rw [e]
        exact missPath_payload divText fetch db today r1 hact

/-- Witness for C1: concrete database, empty initial cache; the first call
builds and caches the payload, the second call is a pure cache hit. -/
theorem daily_cache_second_call_served_from_slot_witness :
    ((dailyGameCachedHandler (fun s => s) (fun _ => .failure)
        (dailyGameCachedHandler (fun s => s) (fun _ => .failure)
          ⟨[⟨1, "Portal 2", "620", none, true⟩], [⟨1, "u1", 1⟩]⟩
          ⟨none, none⟩ "2026-01-01" 0 false).db
        (dailyGameCachedHandler (fun s => s) (fun _ => .failure)
          ⟨[⟨1, "Portal 2", "620", none, true⟩], [⟨1, "u1", 1⟩]⟩
          ⟨none, none⟩ "2026-01-01" 0 false).cache
        "2026-01-01" 1 false).fetched = []) ∧
    ((dailyGameCachedHandler (fun s => s) (fun _ => .failure)
        (dailyGameCachedHandler (fun s => s) (fun _ => .failure)
          ⟨[⟨1, "Portal 2", "620", none, true⟩], [⟨1, "u1", 1⟩]⟩
          ⟨none, none⟩ "2026-01-01" 0 false).db
        (dailyGameCachedHandler (fun s => s) (fun _ => .failure)
          ⟨[⟨1, "Portal 2", "620", none, true⟩], [⟨1, "u1", 1⟩]⟩
          ⟨none, none⟩ "2026-01-01" 0 false).cache
        "2026-01-01" 1 false).catalogQueried = false) ∧
    (∃ t a revs,
      (dailyGameCachedHandler (fun s => s) (fun _ => .failure)
        ⟨[⟨1, "Portal 2", "620", none, true⟩], [⟨1, "u1", 1⟩]⟩
        ⟨none, none⟩ "2026-01-01" 0 false).response =
      DailyResponse.payload t a revs) :=
  ⟨(daily_cache_second_call_served_from_slot (fun s => s) (fun _ => .failure)
      ⟨[⟨1, "Portal 2", "620", none, true⟩], [⟨1, "u1", 1⟩]⟩
      ⟨none, none⟩ "2026-01-01" 0 1 false false).1.1,
    (daily_cache_second_call_served_from_slot (fun s => s) (fun _ => .failure)
      ⟨[⟨1, "Portal 2", "620", none, true⟩], [⟨1, "u1", 1⟩]⟩
      ⟨none, none⟩ "2026-01-01" 0 1 false false).1.2.1,
    (daily_cache_second_call_served_from_slot (fun s => s) (fun _ => .failure)
      ⟨[⟨1, "Portal 2", "620", none, true⟩], [⟨1, "u1", 1⟩]⟩
      ⟨none, none⟩ "2026-01-01" 0 1 false false).2.2
      (by decide) (by decide) rfl⟩

/-- `UPDATE … SET last_played_on` does not change the id column. -/
theorem ids_markPlayed (l : List GameRow) (gid : Nat) (d : String) :
    (markPlayed l gid d).map (fun g => g.id) = l.map (fun g => g.id) := by
  induction l with
  | nil => rfl
  | cons a t ih =>
      unfold markPlayed
      simp only [List.map_cons]
      unfold markPlayed at ih
      rw [ih]
      by_cases hid : (a.id == gid) = true
      · rw [if_pos hid]
      · rw [if_neg hid]

/-- `UPDATE … SET last_played_on` does not change the active flag. -/
theorem active_markPlayed {l : List GameRow} {gid : Nat} {d : String}
    {x : GameRow} (hx : x ∈ markPlayed l gid d)
    (hact : ∀ g ∈ l, g.is_active = true) : x.is_active = true := by
  unfold markPlayed at hx
  obtain ⟨y, hy, hxy⟩ := List.mem_map.mp hx
  by_cases hid : (y.id == gid) = true
  · rw [if_pos hid] at hxy
    rw [← hxy]
    exact hact y hy
  · rw [if_neg hid] at hxy
    rw [← hxy]
    exact hact y hy

/-- Marking one never-played row removes exactly its id from the Block B
candidate ids and leaves the rest in place. -/
theorem blockBCands_markPlayed_ids (games : List GameRow) (g : GameRow)
    (d : String) (hnodup : (games.map (fun x => x.id)).Nodup)
    (hg : g ∈ games) (hact : g.is_active = true)
    (hnone : g.last_played_on = none) :
    (blockBCands (markPlayed games g.id d)).map (fun x => x.id) =
      ((blockBCands games).map (fun x => x.id)).erase g.id := by
  induction games with
  | nil => cases hg
  | cons a t ih =>
      simp only [List.map_cons, List.nodup_cons] at hnodup
      unfold markPlayed blockBCands
      simp only [List.map_cons]
      by_cases hid : a.id = g.id
      · have hgt : g ∉ t := by
          intro hgt
          have hmem : g.id ∈ t.map (fun x => x.id) :=
            List.mem_map_of_mem (fun x => x.id) hgt
          rw [← hid] at hmem
          exact hnodup.1 hmem
        have ha : a = g := by
          rcases List.mem_cons.mp hg with rfl | h2
          · rfl
          · exact absurd h2 hgt
        subst ha
        have ht : markPlayed t a.id d = t := by
          apply markPlayed_eq_self
          intro h hh heq
          apply hnodup.1
          rw [← heq]
          exact List.mem_map_of_mem (fun x => x.id) hh
        unfold markPlayed at ht
        rw [if_pos (show (a.id == a.id) = true from by simp)]
        rw [ht]
        rw [List.filter_cons]
        rw [if_neg (show ¬((({ a with last_played_on := some d } :
            GameRow)).is_active &&
            (({ a with last_played_on := some d } :
              GameRow)).last_played_on == none) = true from by simp)]
        rw [List.filter_cons]
        rw [if_pos (show (a.is_active && a.last_played_on == none) = true
          from by simp [hact, hnone])]
        simp only [List.map_cons]
        rw [List.erase_cons_head]
      · rw [if_neg (show ¬((a.id == g.id) = true) from by simp [hid])]
        have hg2 : g ∈ t := by
          rcases List.mem_cons.mp hg with rfl | h2
          · exact absurd rfl hid
          · exact h2
        have ihx := ih hnodup.2 hg2
        unfold markPlayed blockBCands at ihx
        by_cases hpa : (a.is_active && a.last_played_on == none) = true
        · rw [List.filter_cons]
          rw [if_pos hpa]
          rw [List.filter_cons]
          rw [if_pos hpa]
          simp only [List.map_cons]
          rw [List.erase_cons_tail (by simp [hid])]
          rw [ihx]
        · rw [List.filter_cons]
          rw [if_neg hpa]
          rw [List.filter_cons]
          rw [if_neg hpa]
          exact ihx

/-- One fair-rotation run: with all rows active, distinct ids, pairwise
distinct upcoming dates never already present on a row, and as many days
as never-played rows, the selected rows' ids are a permutation of the
never-played candidates' ids. -/
theorem selectRun_perm_aux (sched : List (String × Nat)) :
    ∀ games : List GameRow,
    (games.map (fun g => g.id)).Nodup →
    (∀ g ∈ games, g.is_active = true) →
    (sched.map Prod.fst).Nodup →
    (∀ g ∈ games, ∀ p ∈ sched, g.last_played_on ≠ some p.1) →
    (blockBCands games).length = sched.length →
    ((selectRun games sched).1.map (fun g => g.id)).Perm
      ((blockBCands games).map (fun g => g.id)) := by
  induction sched with
  | nil =>
      intro games _ _ _ _ hlen
      have hnil : blockBCands games = [] :=
        List.length_eq_zero.mp hlen
      rw [hnil]
      simp [selectRun]
  | cons p rest ih =>
      intro games hnodup hact hdays hfresh hlen
      obtain ⟨d, r⟩ := p
      have hA : blockA games d = none :=
        blockA_eq_none games d
          (fun g hg _ => hfresh g hg (d, r) (List.mem_cons_self _ _))
      have hBne : blockBCands games ≠ [] := by
        intro h0
        rw [h0] at hlen
        simp at hlen
      obtain ⟨g, hpick, hgB⟩ := pickRandom_isSome _ r hBne
      have hgmem : g ∈ games := (List.mem_filter.mp hgB).1
      have hgprops := (List.mem_filter.mp hgB).2
      simp only [Bool.and_eq_true, beq_iff_eq] at hgprops
      have hgact : g.is_active = true := hgprops.1
      have hgnone : g.last_played_on = none := hgprops.2
      have hstep : dailySelectGames games d r =
          (some g, markPlayed games g.id d, true) := by
        unfold dailySelectGames
        rw [hA, hpick]
      have hnodup' :
          ((markPlayed games g.id d).map (fun g => g.id)).Nodup := by
        rw [ids_markPlayed]
        exact hnodup
      have hact' : ∀ x ∈ markPlayed games g.id d, x.is_active = true :=
        fun x hx => active_markPlayed hx hact
      have hdaysRest : (rest.map Prod.fst).Nodup := by
        simp only [List.map_cons, List.nodup_cons] at hdays
        exact hdays.2
      have hdnotin : d ∉ rest.map Prod.fst := by
        simp only [List.map_cons, List.nodup_cons] at hdays
        exact hdays.1
      have hfresh' : ∀ x ∈ markPlayed games g.id d, ∀ q ∈ rest,
          x.last_played_on ≠ some q.1 := by
        intro x hx q hq
        unfold markPlayed at hx
        obtain ⟨y, hy, hxy⟩ := List.mem_map.mp hx
        by_cases hyid : (y.id == g.id) = true
        · rw [if_pos hyid] at hxy
          rw [← hxy]
          intro hdq
          apply hdnotin
          have hd : d = q.1 := by simpa using hdq
          rw [hd]
          exact List.mem_map_of_mem Prod.fst hq
        · rw [if_neg hyid] at hxy
          rw [← hxy]
          exact hfresh y hy q (List.mem_cons_of_mem _ hq)
      have hB' : (blockBCands (markPlayed games g.id d)).map (fun x => x.id)
          = ((blockBCands games).map (fun x => x.id)).erase g.id :=
        blockBCands_markPlayed_ids games g d hnodup hgmem hgact hgnone
      have hmemid : g.id ∈ (blockBCands games).map (fun x => x.id) :=
        List.mem_map_of_mem (fun x => x.id) hgB
      have hlen' : (blockBCands (markPlayed games g.id d)).length =
          rest.length := by
        have h1 : (blockBCands (markPlayed games g.id d)).length =
            ((blockBCands (markPlayed games g.id d)).map
              (fun x => x.id)).length := by
          rw [List.length_map]
        rw [h1, hB', List.length_erase_of_mem hmemid, List.length_map, hlen]
        simp
      have hperm := ih (markPlayed games g.id d) hnodup' hact' hdaysRest
        hfresh' hlen'
      rw [hB'] at hperm
      have hsr : (selectRun games ((d, r) :: rest)).1 =
          g :: (selectRun (markPlayed games g.id d) rest).1 := by
        simp [selectRun, hstep]
      rw [hsr]
      simp only [List.map_cons]
      exact (List.Perm.cons g.id hperm).trans
        (List.perm_cons_erase hmemid).symm

/-- **C3**: from a catalog of `N ≥ 0` active entries, all with null
last-played date and distinct ids, `N` consecutive selections on pairwise
distinct days (each Block D write succeeding) select each entry exactly
once: the selected ids are a permutation of the catalog ids, each day's
pick drawn from the still-unselected candidates by the `RANDOM()` oracle. -/
theorem rotation_fairness (games : List GameRow)
    (sched : List (String × Nat))
    (hnodup : (games.map (fun g => g.id)).Nodup)
    (hinit : ∀ g ∈ games, g.is_active = true ∧ g.last_played_on = none)
    (hdays : (sched.map Prod.fst).Nodup)
    (hlen : sched.length = games.length) :
    ((selectRun games sched).1.map (fun g => g.id)).Perm
      (games.map (fun g => g.id)) := by
  have hBB : blockBCands games = games := by
    unfold blockBCands
    rw [List.filter_eq_self]
    intro a ha
    simp [(hinit a ha).1, (hinit a ha).2]
  have hmain := selectRun_perm_aux sched games hnodup
    (fun g hg => (hinit g hg).1) hdays
    (fun g hg p _ => by rw [(hinit g hg).2]; simp)
    (by rw [hBB, hlen])
  rwa [hBB] at hmain

/-- Witness for C3: three entries, three distinct days, oracle values
0, 1, 0 — each entry is selected exactly once. -/
theorem rotation_fairness_witness :
    ((selectRun
        [⟨1, "A", "a", none, true⟩, ⟨2, "B", "b", none, true⟩,
         ⟨3, "C", "c", none, true⟩]
        [("2026-01-01", 0), ("2026-01-02", 1), ("2026-01-03", 0)]).1.map
      (fun g => g.id)).Perm
      (([⟨1, "A", "a", none, true⟩, ⟨2, "B", "b", none, true⟩,
         ⟨3, "C", "c", none, true⟩] : List GameRow).map (fun g => g.id)) :=
  rotation_fairness
    [⟨1, "A", "a", none, true⟩, ⟨2, "B", "b", none, true⟩,
     ⟨3, "C", "c", none, true⟩]
    [("2026-01-01", 0), ("2026-01-02", 1), ("2026-01-03", 0)]
    (by decide) (by decide) (by decide) (by decide)

/-- Witness for C2 (amended) at a concrete database. -/
theorem persist_failure_returns_500_witness :
    dailyGameHandler (fun s => s) (fun _ => .failure)
        ⟨[⟨1, "Portal 2", "620", none, true⟩], []⟩ "2026-01-01" 0 true =
      (.error 500 "Internal server error while selecting daily game.",
        ⟨[⟨1, "Portal 2", "620", none, true⟩], []⟩, []) :=
  persist_failure_returns_500 _ _ _ _ _ ⟨1, "Portal 2", "620", none, true⟩
    (by decide) (by decide)

end Steamdle
